import Mathlib

/-!
Verification of the bulk message dispatch logic of the
`solana-send-tx-msg` repository (`src/messageSender.ts`, `src/config.ts`,
`src/fileUtils.ts`).

The effectful boundary — transaction construction, signing, submission and
confirmation (`getLatestBlockhash` + `sendAndConfirmTransaction`) — is
abstracted as a per-call outcome of type `Except Thrown String`: either the
confirmed transaction signature, or the thrown value that the surrounding
`try`/`catch` observes.  Everything after that boundary (result-record
construction, the bulk loops, counters, pacing, aggregation, and the
recipients-file validation logic) is translated directly from the source.

Timer suspensions (`setTimeout`) and send attempts are recorded in an
explicit trace of `Event`s so that pacing and dispatch-order properties can
be stated.
-/

/-- Model of `@solana/web3.js` `PublicKey`, identified with its base58
text form (the only use this code makes of it). -/
structure PublicKey where
  base58 : String
  deriving DecidableEq, Repr

/-- Model of `PublicKey.prototype.toBase58`. -/
def PublicKey.toBase58 (pk : PublicKey) : String :=
  pk.base58

/-- `TransactionResult` from `src/types.ts`. -/
structure TransactionResult where
  signature : String
  success : Bool
  error : Option String := none
  explorerUrl : Option String := none
  deriving DecidableEq, Repr

/-- A JavaScript thrown value as observed by a `catch (error)` block:
either an `Error` carrying a message, or any other thrown value. -/
inductive Thrown where
  | error (message : String)
  | nonError
  deriving DecidableEq, Repr

/-- Model of the idiom `error instanceof Error ? error.message : "Unknown error"`
used by every `catch` block in `src/messageSender.ts`. -/
def errorMessageOf : Thrown → String
  | Thrown.error message => message
  | Thrown.nonError => "Unknown error"

/-- `getExplorerUrl` from `src/config.ts`. -/
def getExplorerUrl (signature : String) (network : String) : String :=
  let cluster := if network == "mainnet-beta" then "" else "?cluster=" ++ network
  "https://explorer.solana.com/tx/" ++ signature ++ cluster

/-- `SolanaMessageSender.sendMessage` from `src/messageSender.ts`, with the
chain interaction abstracted as `chain : Except Thrown String` (the
confirmed signature, or the thrown value caught by the method's own
`try`/`catch`).  The method never throws: every caught error becomes a
failure `TransactionResult`. -/
def sendMessage (network : String) (chain : Except Thrown String) : TransactionResult :=
  match chain with
  | Except.ok signature =>
      { signature := signature, success := true,
        explorerUrl := some (getExplorerUrl signature network) }
  | Except.error e =>
      { signature := "", success := false, error := some (errorMessageOf e) }

/-- `SolanaMessageSender.sendMemoOnly` from `src/messageSender.ts`, abstracted
exactly like `sendMessage` (its post-processing of the chain outcome is
identical). -/
def sendMemoOnly (network : String) (chain : Except Thrown String) : TransactionResult :=
  match chain with
  | Except.ok signature =>
      { signature := signature, success := true,
        explorerUrl := some (getExplorerUrl signature network) }
  | Except.error e =>
      { signature := "", success := false, error := some (errorMessageOf e) }

/-- `BulkTransactionResult` from `src/types.ts`. -/
structure BulkTransactionResult where
  recipientAddress : String
  signature : String
  success : Bool
  error : Option String := none
  explorerUrl : Option String := none
  deriving DecidableEq, Repr

/-- `BulkMessageResult` from `src/types.ts`. -/
structure BulkMessageResult where
  totalSent : Nat
  totalFailed : Nat
  results : List BulkTransactionResult
  overallSuccess : Bool
  deriving DecidableEq, Repr

/-- One event in the observable trace of a bulk run: a send attempt for the
work item at a given index, or a timer suspension (`setTimeout`) of a given
duration in milliseconds. -/
inductive Event where
  | send (index : Nat)
  | delay (ms : Nat)
  deriving DecidableEq, Repr

/-- The indices of the send attempts in a trace, in order. -/
def sendsOf (trace : List Event) : List Nat :=
  trace.filterMap fun e =>
    match e with
    | Event.send i => some i
    | Event.delay _ => none

/-- JavaScript truthiness of the optional numeric field `delayBetweenTx`
(`undefined` and `0` are falsy). -/
def delayTruthy : Option Nat → Bool
  | none => false
  | some d => d != 0

/-- The timer events produced after the loop body for index `i` out of `n`
work items: `if (config.delayBetweenTx && i < length - 1) await setTimeout(...)`. -/
def delayEvents (delay : Option Nat) (i n : Nat) : List Event :=
  if delayTruthy delay && decide (i < n - 1) then [Event.delay (delay.getD 0)] else []

/-- The result record pushed on the success branch of the bulk loops. -/
def successEntry (addr : String) (r : TransactionResult) : BulkTransactionResult :=
  { recipientAddress := addr, signature := r.signature, success := true,
    explorerUrl := r.explorerUrl }

/-- The result record pushed on the failure and catch branches of the bulk
loops (`signature: ""`, `success: false`, the error text). -/
def failureEntry (addr : String) (err : Option String) : BulkTransactionResult :=
  { recipientAddress := addr, signature := "", success := false, error := err }

/-- The accumulator of one bulk run: the `results` array, the two counters
and the observable event trace. -/
structure LoopOut where
  results : List BulkTransactionResult
  totalSent : Nat
  totalFailed : Nat
  trace : List Event
  deriving DecidableEq, Repr

/-- The shared body of the two bulk loops (`sendBulkMessages` /
`sendBulkMemoOnly` in `src/messageSender.ts`), as a recursion over the
remaining work items paired with the current index `i`.

`targetOf` gives the `recipientAddress` string recorded for an item
(`recipient.toBase58()` resp. the literal `"memo-only"`), `client i` is the
outcome of the per-item call (`await this.sendMessage(...)` resp.
`sendMemoOnly`): a returned `TransactionResult`, or a `Thrown` value
handled by the loop's `catch` block.  `n` is the total number of work
items (the loop's `length`, used by the delay guard `i < length - 1`).

Branches mirror the source: success pushes a `successEntry` and falls
through to the delay; a failure result pushes a `failureEntry` and either
`break`s (when `!continueOnError`, before the delay) or falls through to
the delay; a thrown value is caught, pushes a `failureEntry` with the
caught error's message and either `break`s or continues — the `catch`
block contains no delay statement. -/
def bulkLoop (targetOf : α → String) (client : Nat → Except Thrown TransactionResult)
    (delay : Option Nat) (cont : Bool) (n : Nat) :
    List α → Nat → LoopOut
  | [], _ => ⟨[], 0, 0, []⟩
  | item :: rest, i =>
    let addr := targetOf item
    match client i with
    | Except.ok result =>
      if result.success then
        let o := bulkLoop targetOf client delay cont n rest (i + 1)
        ⟨successEntry addr result :: o.results, o.totalSent + 1, o.totalFailed,
          Event.send i :: (delayEvents delay i n ++ o.trace)⟩
      else if !cont then
        ⟨[failureEntry addr result.error], 0, 1, [Event.send i]⟩
      else
        let o := bulkLoop targetOf client delay cont n rest (i + 1)
        ⟨failureEntry addr result.error :: o.results, o.totalSent, o.totalFailed + 1,
          Event.send i :: (delayEvents delay i n ++ o.trace)⟩
    | Except.error e =>
      if !cont then
        ⟨[failureEntry addr (some (errorMessageOf e))], 0, 1, [Event.send i]⟩
      else
        let o := bulkLoop targetOf client delay cont n rest (i + 1)
        ⟨failureEntry addr (some (errorMessageOf e)) :: o.results, o.totalSent,
          o.totalFailed + 1, Event.send i :: o.trace⟩

/-- The bulk loop written in the `Except` monad, with the iteration body's
`try`/`catch` rendered by `Except.tryCatch`: the `try` block performs the
per-item call (the only throwing expression it contains) and decides the
record to push, whether to `break`, and the pending delay events; the
`catch` handler turns a `Thrown` into a failure record.  A thrown value
not discharged by the `catch` would surface as `Except.error`; the
development proves this never happens (claim C6). -/
def bulkLoopE (targetOf : α → String) (client : Nat → Except Thrown TransactionResult)
    (delay : Option Nat) (cont : Bool) (n : Nat) :
    List α → Nat → Except Thrown LoopOut
  | [], _ => Except.ok ⟨[], 0, 0, []⟩
  | item :: rest, i =>
    let addr := targetOf item
    let step : Except Thrown (BulkTransactionResult × Bool × List Event) :=
      Except.tryCatch
        (Except.bind (client i) fun result =>
          if result.success then
            Except.ok (successEntry addr result, false, delayEvents delay i n)
          else if !cont then
            Except.ok (failureEntry addr result.error, true, [])
          else
            Except.ok (failureEntry addr result.error, false, delayEvents delay i n))
        (fun e =>
          if !cont then
            Except.ok (failureEntry addr (some (errorMessageOf e)), true, [])
          else
            Except.ok (failureEntry addr (some (errorMessageOf e)), false, []))
    Except.bind step fun s =>
      match s with
      | (entry, true, _) => Except.ok ⟨[entry], 0, 1, [Event.send i]⟩
      | (entry, false, evts) =>
        Except.bind (bulkLoopE targetOf client delay cont n rest (i + 1)) fun o =>
          Except.ok ⟨entry :: o.results,
            o.totalSent + (if entry.success then 1 else 0),
            o.totalFailed + (if entry.success then 0 else 1),
            Event.send i :: (evts ++ o.trace)⟩

/-- `BulkMessageConfig` from `src/types.ts` (the fields the dispatch logic
reads; the optional `continueOnError : boolean | undefined` is collapsed to
its truthiness, which is all `!config.continueOnError` observes). -/
structure BulkMessageConfig where
  message : String
  recipientAddresses : List PublicKey
  delayBetweenTx : Option Nat := none
  continueOnError : Bool := false
  deriving Repr

/-- `SolanaMessageSender.sendBulkMessages`: the bulk loop over the
recipient list, with the per-item client being `sendMessage` (which never
throws), followed by the summary aggregation
`overallSuccess = (totalFailed === 0)`.  Returns the `BulkMessageResult`
and the observable event trace. -/
def sendBulkMessages (cfg : BulkMessageConfig) (network : String)
    (chain : Nat → Except Thrown String) : BulkMessageResult × List Event :=
  let n := cfg.recipientAddresses.length
  let o := bulkLoop PublicKey.toBase58
    (fun i => Except.ok (sendMessage network (chain i)))
    cfg.delayBetweenTx cfg.continueOnError n cfg.recipientAddresses 0
  ({ totalSent := o.totalSent, totalFailed := o.totalFailed,
     results := o.results, overallSuccess := o.totalFailed == 0 }, o.trace)

/-- The configuration accepted by `sendBulkMemoOnly`:
`Omit<BulkMessageConfig, "recipientAddresses"> & { messages?: string[] }`. -/
structure BulkMemoConfig where
  message : String
  messages : Option (List String) := none
  delayBetweenTx : Option Nat := none
  continueOnError : Bool := false
  deriving Repr

/-- The work list of `sendBulkMemoOnly`:
`const messages = config.messages || [config.message]`.  In JavaScript an
array is truthy even when empty, so only an absent (`undefined`) field
falls back to the single-element list. -/
def memoMessagesOf (cfg : BulkMemoConfig) : List String :=
  cfg.messages.getD [cfg.message]

/-- `SolanaMessageSender.sendBulkMemoOnly`: the bulk loop over the memo
list, every record carrying the literal `recipientAddress` `"memo-only"`,
with the per-item client being `sendMemoOnly` (which never throws). -/
def sendBulkMemoOnly (cfg : BulkMemoConfig) (network : String)
    (chain : Nat → Except Thrown String) : BulkMessageResult × List Event :=
  let messages := memoMessagesOf cfg
  let n := messages.length
  let o := bulkLoop (fun _ => "memo-only")
    (fun i => Except.ok (sendMemoOnly network (chain i)))
    cfg.delayBetweenTx cfg.continueOnError n messages 0
  ({ totalSent := o.totalSent, totalFailed := o.totalFailed,
     results := o.results, overallSuccess := o.totalFailed == 0 }, o.trace)

/-- `sendBulkMessages` built on the `Except`-monad rendering of the loop
(`bulkLoopE`), exposing any exception that would escape the dispatch call. -/
def sendBulkMessagesE (cfg : BulkMessageConfig) (network : String)
    (chain : Nat → Except Thrown String) : Except Thrown (BulkMessageResult × List Event) :=
  let n := cfg.recipientAddresses.length
  Except.bind
    (bulkLoopE PublicKey.toBase58
      (fun i => Except.ok (sendMessage network (chain i)))
      cfg.delayBetweenTx cfg.continueOnError n cfg.recipientAddresses 0)
    fun o =>
      Except.ok ({ totalSent := o.totalSent, totalFailed := o.totalFailed,
                   results := o.results, overallSuccess := o.totalFailed == 0 }, o.trace)

/-- `sendBulkMemoOnly` built on the `Except`-monad rendering of the loop. -/
def sendBulkMemoOnlyE (cfg : BulkMemoConfig) (network : String)
    (chain : Nat → Except Thrown String) : Except Thrown (BulkMessageResult × List Event) :=
  let messages := memoMessagesOf cfg
  let n := messages.length
  Except.bind
    (bulkLoopE (fun _ => "memo-only")
      (fun i => Except.ok (sendMemoOnly network (chain i)))
      cfg.delayBetweenTx cfg.continueOnError n messages 0)
    fun o =>
      Except.ok ({ totalSent := o.totalSent, totalFailed := o.totalFailed,
                   results := o.results, overallSuccess := o.totalFailed == 0 }, o.trace)

/-- Whether a per-item client outcome counts as a success for the loop:
a returned result with `success = true`.  A returned failure result and a
thrown value are both failures. -/
def clientOk : Except Thrown TransactionResult → Bool
  | Except.ok r => r.success
  | Except.error _ => false

/-- The error text the loop records for a failing client outcome: the
returned result's `error` field, or the caught error's message. -/
def clientErrOf : Except Thrown TransactionResult → Option String
  | Except.ok r => r.error
  | Except.error e => some (errorMessageOf e)

/-- The result record the loop pushes for an item with target `addr` whose
client call had the given outcome. -/
def entryOf (addr : String) (outcome : Except Thrown TransactionResult) : BulkTransactionResult :=
  match outcome with
  | Except.ok r => if r.success then successEntry addr r else failureEntry addr r.error
  | Except.error e => failureEntry addr (some (errorMessageOf e))

/-- Whether a chain outcome is a confirmed signature. -/
def chainOk : Except Thrown String → Bool
  | Except.ok _ => true
  | Except.error _ => false

/-- `FileValidationResult` from `src/types.ts`. -/
structure FileValidationResult where
  isValid : Bool
  addresses : List String
  validAddresses : List PublicKey
  invalidAddresses : List String
  error : Option String := none
  deriving DecidableEq, Repr

/-- `FileUtils.readRecipientsFile` from `src/fileUtils.ts`.  The file
system is abstracted as `fileContent : Option String` (`none` when the
file is missing or unreadable, i.e. `checkRecipientsFile` fails or the
read throws) and address validation (`WalletUtils.toPublicKey` throwing or
not) as the predicate `isValidAddress`. -/
def readRecipientsFile (filePath : String) (isValidAddress : String → Bool)
    (fileContent : Option String) : FileValidationResult :=
  match fileContent with
  | none =>
      { isValid := false, addresses := [], validAddresses := [], invalidAddresses := [],
        error := some ("Recipients file " ++ filePath ++ " does not exist or is not readable") }
  | some content =>
      let lines := ((content.splitOn "\n").map String.trim).filter
        (fun line => decide (0 < line.length) && !(line.startsWith "#"))
      if lines.length == 0 then
        { isValid := false, addresses := [], validAddresses := [], invalidAddresses := [],
          error := some ("No valid addresses found in " ++ filePath ++
            ". File is empty or contains only comments.") }
      else
        let validAddresses := (lines.filter isValidAddress).map PublicKey.mk
        let invalidAddresses := lines.filter fun a => !isValidAddress a
        let isValid := invalidAddresses.length == 0 && decide (0 < validAddresses.length)
        { isValid := isValid, addresses := lines, validAddresses := validAddresses,
          invalidAddresses := invalidAddresses,
          error := if 0 < invalidAddresses.length then
              some ("Invalid addresses found: " ++ String.intercalate ", " invalidAddresses)
            else none }

/-- `FileRecipientConfig` from `src/types.ts` (the fields the dispatch
logic reads). -/
structure FileRecipientConfig where
  message : String
  recipientsFile : String
  delayBetweenTx : Option Nat := none
  continueOnError : Bool := false
  deriving Repr

/-- `SolanaMessageSender.sendMessagesFromFile` from `src/messageSender.ts`:
validate the recipients file; on failed validation return the fixed
`{ totalSent: 0, totalFailed: 0, results: [], overallSuccess: false }`
without dispatching anything; otherwise forward the valid addresses to
`sendBulkMessages`.  (`validateRecipients` only warns when `isValid` holds,
so it is a no-op on this path.) -/
def sendMessagesFromFile (cfg : FileRecipientConfig) (isValidAddress : String → Bool)
    (fileContent : Option String) (network : String)
    (chain : Nat → Except Thrown String) : BulkMessageResult × List Event :=
  let validation := readRecipientsFile cfg.recipientsFile isValidAddress fileContent
  if !validation.isValid then
    ({ totalSent := 0, totalFailed := 0, results := [], overallSuccess := false }, [])
  else
    sendBulkMessages
      { message := cfg.message, recipientAddresses := validation.validAddresses,
        delayBetweenTx := cfg.delayBetweenTx, continueOnError := cfg.continueOnError }
      network chain

/-- The paced trace shape: sends at indices `i, i+1, ...`, `m` of them,
with exactly one delay of `d` milliseconds between consecutive sends and
none after the last. -/
def pacedFrom (d : Nat) : Nat → Nat → List Event
  | _, 0 => []
  | i, 1 => [Event.send i]
  | i, m + 2 => Event.send i :: Event.delay d :: pacedFrom d (i + 1) (m + 1)

theorem sendsOf_nil : sendsOf [] = [] := rfl

theorem sendsOf_cons_send (i : Nat) (t : List Event) :
    sendsOf (Event.send i :: t) = i :: sendsOf t := rfl

theorem sendsOf_delayEvents_append (delay : Option Nat) (i n : Nat) (t : List Event) :
    sendsOf (delayEvents delay i n ++ t) = sendsOf t := by
  unfold delayEvents
  split
  · rfl
  · rfl

theorem bulkLoop_sent_counts {α : Type} (targetOf : α → String)
    (client : Nat → Except Thrown TransactionResult)
    (delay : Option Nat) (cont : Bool) (n : Nat) (items : List α) :
    ∀ i, (bulkLoop targetOf client delay cont n items i).totalSent =
      (bulkLoop targetOf client delay cont n items i).results.countP (fun r => r.success) := by
  induction items with
  | nil => intro i; simp [bulkLoop]
  | cons item rest ih =>
    intro i
    cases h : client i with
    | ok result =>
      by_cases hs : result.success
      · simp [bulkLoop, h, hs, ih (i + 1), successEntry, List.countP_cons]
      · cases cont with
        | true => simp [bulkLoop, h, hs, ih (i + 1), failureEntry, List.countP_cons]
        | false => simp [bulkLoop, h, hs, failureEntry, List.countP_cons]
    | error e =>
      cases cont with
      | true => simp [bulkLoop, h, ih (i + 1), failureEntry, List.countP_cons]
      | false => simp [bulkLoop, h, failureEntry, List.countP_cons]

theorem bulkLoop_failed_counts {α : Type} (targetOf : α → String)
    (client : Nat → Except Thrown TransactionResult)
    (delay : Option Nat) (cont : Bool) (n : Nat) (items : List α) :
    ∀ i, (bulkLoop targetOf client delay cont n items i).totalFailed =
      (bulkLoop targetOf client delay cont n items i).results.countP (fun r => !r.success) := by
  induction items with
  | nil => intro i; simp [bulkLoop]
  | cons item rest ih =>
    intro i
    cases h : client i with
    | ok result =>
      by_cases hs : result.success
      · simp [bulkLoop, h, hs, ih (i + 1), successEntry, List.countP_cons]
      · cases cont with
        | true => simp [bulkLoop, h, hs, ih (i + 1), failureEntry, List.countP_cons]
        | false => simp [bulkLoop, h, hs, failureEntry, List.countP_cons]
    | error e =>
      cases cont with
      | true => simp [bulkLoop, h, ih (i + 1), failureEntry, List.countP_cons]
      | false => simp [bulkLoop, h, failureEntry, List.countP_cons]

theorem bulkLoop_sum {α : Type} (targetOf : α → String)
    (client : Nat → Except Thrown TransactionResult)
    (delay : Option Nat) (cont : Bool) (n : Nat) (items : List α) :
    ∀ i, (bulkLoop targetOf client delay cont n items i).totalSent +
      (bulkLoop targetOf client delay cont n items i).totalFailed =
      (bulkLoop targetOf client delay cont n items i).results.length := by
  intro i
  rw [bulkLoop_sent_counts, bulkLoop_failed_counts]
  induction (bulkLoop targetOf client delay cont n items i).results with
  | nil => simp
  | cons r rs ih =>
    simp only [List.countP_cons, List.length_cons]
    cases hr : r.success <;> simp [hr] <;> omega

theorem bulkLoop_length_le {α : Type} (targetOf : α → String)
    (client : Nat → Except Thrown TransactionResult)
    (delay : Option Nat) (cont : Bool) (n : Nat) (items : List α) :
    ∀ i, (bulkLoop targetOf client delay cont n items i).results.length ≤ items.length := by
  induction items with
  | nil => intro i; simp [bulkLoop]
  | cons item rest ih =>
    intro i
    cases h : client i with
    | ok result =>
      by_cases hs : result.success
      · simpa [bulkLoop, h, hs] using ih (i + 1)
      · cases cont with
        | true => simpa [bulkLoop, h, hs] using ih (i + 1)
        | false => simp [bulkLoop, h, hs]
    | error e =>
      cases cont with
      | true => simpa [bulkLoop, h] using ih (i + 1)
      | false => simp [bulkLoop, h]

theorem bulkLoop_cont_length {α : Type} (targetOf : α → String)
    (client : Nat → Except Thrown TransactionResult)
    (delay : Option Nat) (n : Nat) (items : List α) :
    ∀ i, (bulkLoop targetOf client delay true n items i).results.length = items.length := by
  induction items with
  | nil => intro i; simp [bulkLoop]
  | cons item rest ih =>
    intro i
    cases h : client i with
    | ok result =>
      by_cases hs : result.success
      · simpa [bulkLoop, h, hs] using ih (i + 1)
      · simpa [bulkLoop, h, hs] using ih (i + 1)
    | error e => simpa [bulkLoop, h] using ih (i + 1)

theorem bulkLoop_short {α : Type} (targetOf : α → String)
    (client : Nat → Except Thrown TransactionResult)
    (delay : Option Nat) (cont : Bool) (n : Nat) (items : List α) :
    ∀ i, (bulkLoop targetOf client delay cont n items i).results.length < items.length →
      cont = false ∧ ∃ pre r, (bulkLoop targetOf client delay cont n items i).results = pre ++ [r] ∧
        r.success = false := by
  induction items with
  | nil => intro i hlt; simp [bulkLoop] at hlt
  | cons item rest ih =>
    intro i hlt
    cases h : client i with
    | ok result =>
      by_cases hs : result.success
      · simp only [bulkLoop, h, hs, if_pos] at hlt ⊢
        simp only [List.length_cons, Nat.add_lt_add_iff_right] at hlt
        obtain ⟨hcont, pre, r, hpre, hr⟩ := ih (i + 1) (by simpa using hlt)
        refine ⟨hcont, successEntry (targetOf item) result :: pre, r, ?_, hr⟩
        simp [hpre]
      · cases cont with
        | true =>
          simp only [bulkLoop, h] at hlt
          simp only [hs] at hlt
          simp only [Bool.not_true, if_neg, ite_false, if_false, List.length_cons] at hlt
          obtain ⟨hcont, _⟩ := ih (i + 1) (by simpa using hlt)
          exact absurd hcont (by simp)
        | false =>
          refine ⟨rfl, [], failureEntry (targetOf item) result.error, ?_, rfl⟩
          simp [bulkLoop, h, hs]
    | error e =>
      cases cont with
      | true =>
        simp only [bulkLoop, h, Bool.not_true, ite_false, if_false, List.length_cons] at hlt
        obtain ⟨hcont, _⟩ := ih (i + 1) (by simpa using hlt)
        exact absurd hcont (by simp)
      | false =>
        refine ⟨rfl, [], failureEntry (targetOf item) (some (errorMessageOf e)), ?_, rfl⟩
        simp [bulkLoop, h]

theorem bulkLoop_pos {α : Type} (targetOf : α → String)
    (client : Nat → Except Thrown TransactionResult)
    (delay : Option Nat) (cont : Bool) (n : Nat) (item : α) (rest : List α) :
    ∀ i, 0 < (bulkLoop targetOf client delay cont n (item :: rest) i).results.length := by
  intro i
  cases h : client i with
  | ok result =>
    by_cases hs : result.success
    · simp [bulkLoop, h, hs]
    · cases cont with
      | true => simp [bulkLoop, h, hs]
      | false => simp [bulkLoop, h, hs]
  | error e =>
    cases cont with
    | true => simp [bulkLoop, h]
    | false => simp [bulkLoop, h]

theorem bulkLoop_cons_ok_succ {α : Type} (targetOf : α → String)
    (client : Nat → Except Thrown TransactionResult)
    (delay : Option Nat) (cont : Bool) (n : Nat) (item : α) (rest : List α) (i : Nat)
    (result : TransactionResult) (h : client i = Except.ok result)
    (hs : result.success = true) :
    bulkLoop targetOf client delay cont n (item :: rest) i =
      ⟨successEntry (targetOf item) result ::
          (bulkLoop targetOf client delay cont n rest (i + 1)).results,
        (bulkLoop targetOf client delay cont n rest (i + 1)).totalSent + 1,
        (bulkLoop targetOf client delay cont n rest (i + 1)).totalFailed,
        Event.send i :: (delayEvents delay i n ++
          (bulkLoop targetOf client delay cont n rest (i + 1)).trace)⟩ := by
  simp [bulkLoop, h, hs]

theorem bulkLoop_cons_ok_fail_stop {α : Type} (targetOf : α → String)
    (client : Nat → Except Thrown TransactionResult)
    (delay : Option Nat) (n : Nat) (item : α) (rest : List α) (i : Nat)
    (result : TransactionResult) (h : client i = Except.ok result)
    (hs : result.success = false) :
    bulkLoop targetOf client delay false n (item :: rest) i =
      ⟨[failureEntry (targetOf item) result.error], 0, 1, [Event.send i]⟩ := by
  simp [bulkLoop, h, hs]

theorem bulkLoop_cons_ok_fail_cont {α : Type} (targetOf : α → String)
    (client : Nat → Except Thrown TransactionResult)
    (delay : Option Nat) (n : Nat) (item : α) (rest : List α) (i : Nat)
    (result : TransactionResult) (h : client i = Except.ok result)
    (hs : result.success = false) :
    bulkLoop targetOf client delay true n (item :: rest) i =
      ⟨failureEntry (targetOf item) result.error ::
          (bulkLoop targetOf client delay true n rest (i + 1)).results,
        (bulkLoop targetOf client delay true n rest (i + 1)).totalSent,
        (bulkLoop targetOf client delay true n rest (i + 1)).totalFailed + 1,
        Event.send i :: (delayEvents delay i n ++
          (bulkLoop targetOf client delay true n rest (i + 1)).trace)⟩ := by
  simp [bulkLoop, h, hs]

theorem bulkLoop_cons_err_stop {α : Type} (targetOf : α → String)
    (client : Nat → Except Thrown TransactionResult)
    (delay : Option Nat) (n : Nat) (item : α) (rest : List α) (i : Nat)
    (e : Thrown) (h : client i = Except.error e) :
    bulkLoop targetOf client delay false n (item :: rest) i =
      ⟨[failureEntry (targetOf item) (some (errorMessageOf e))], 0, 1, [Event.send i]⟩ := by
  simp [bulkLoop, h]

theorem bulkLoop_cons_err_cont {α : Type} (targetOf : α → String)
    (client : Nat → Except Thrown TransactionResult)
    (delay : Option Nat) (n : Nat) (item : α) (rest : List α) (i : Nat)
    (e : Thrown) (h : client i = Except.error e) :
    bulkLoop targetOf client delay true n (item :: rest) i =
      ⟨failureEntry (targetOf item) (some (errorMessageOf e)) ::
          (bulkLoop targetOf client delay true n rest (i + 1)).results,
        (bulkLoop targetOf client delay true n rest (i + 1)).totalSent,
        (bulkLoop targetOf client delay true n rest (i + 1)).totalFailed + 1,
        Event.send i :: (bulkLoop targetOf client delay true n rest (i + 1)).trace⟩ := by
  simp [bulkLoop, h]

theorem bulkLoop_sends {α : Type} (targetOf : α → String)
    (client : Nat → Except Thrown TransactionResult)
    (delay : Option Nat) (cont : Bool) (n : Nat) (items : List α) :
    ∀ i, sendsOf (bulkLoop targetOf client delay cont n items i).trace =
      List.range' i (bulkLoop targetOf client delay cont n items i).results.length := by
  induction items with
  | nil => intro i; simp [bulkLoop, sendsOf]
  | cons item rest ih =>
    intro i
    cases h : client i with
    | ok result =>
      cases hs : result.success with
      | true =>
        rw [bulkLoop_cons_ok_succ targetOf client delay cont n item rest i result h hs]
        simp only [List.length_cons, List.range'_succ, sendsOf_cons_send,
          sendsOf_delayEvents_append, ih (i + 1)]
      | false =>
        cases cont with
        | false =>
          rw [bulkLoop_cons_ok_fail_stop targetOf client delay n item rest i result h hs]
          simp [sendsOf, List.range'_succ]
        | true =>
          rw [bulkLoop_cons_ok_fail_cont targetOf client delay n item rest i result h hs]
          simp only [List.length_cons, List.range'_succ, sendsOf_cons_send,
            sendsOf_delayEvents_append, ih (i + 1)]
    | error e =>
      cases cont with
      | false =>
        rw [bulkLoop_cons_err_stop targetOf client delay n item rest i e h]
        simp [sendsOf, List.range'_succ]
      | true =>
        rw [bulkLoop_cons_err_cont targetOf client delay n item rest i e h]
        simp only [List.length_cons, List.range'_succ, sendsOf_cons_send, ih (i + 1)]

theorem bulkLoop_getElemQ {α : Type} (targetOf : α → String)
    (client : Nat → Except Thrown TransactionResult)
    (delay : Option Nat) (cont : Bool) (n : Nat) (items : List α) :
    ∀ i k (hk2 : k < items.length),
      k < (bulkLoop targetOf client delay cont n items i).results.length →
      (bulkLoop targetOf client delay cont n items i).results[k]? =
        some (entryOf (targetOf (items.get ⟨k, hk2⟩)) (client (i + k))) := by
  induction items with
  | nil => intro i k hk2 _; simp at hk2
  | cons item rest ih =>
    intro i k hk2 hklen
    cases h : client i with
    | ok result =>
      cases hs : result.success with
      | true =>
        rw [bulkLoop_cons_ok_succ targetOf client delay cont n item rest i result h hs] at hklen ⊢
        match k with
        | 0 => simp [entryOf, h, hs]
        | k + 1 =>
          simp only [List.getElem?_cons_succ, List.get_cons_succ]
          have hrec := ih (i + 1) k (by simpa using hk2) (by simpa using hklen)
          rw [show i + (k + 1) = i + 1 + k by omega]
          exact hrec
      | false =>
        cases cont with
        | false =>
          rw [bulkLoop_cons_ok_fail_stop targetOf client delay n item rest i result h hs]
            at hklen ⊢
          match k with
          | 0 => simp [entryOf, h, hs]
          | k + 1 => simp at hklen
        | true =>
          rw [bulkLoop_cons_ok_fail_cont targetOf client delay n item rest i result h hs]
            at hklen ⊢
          match k with
          | 0 => simp [entryOf, h, hs]
          | k + 1 =>
            simp only [List.getElem?_cons_succ, List.get_cons_succ]
            have hrec := ih (i + 1) k (by simpa using hk2) (by simpa using hklen)
            rw [show i + (k + 1) = i + 1 + k by omega]
            exact hrec
    | error e =>
      cases cont with
      | false =>
        rw [bulkLoop_cons_err_stop targetOf client delay n item rest i e h] at hklen ⊢
        match k with
        | 0 => simp [entryOf, h]
        | k + 1 => simp at hklen
      | true =>
        rw [bulkLoop_cons_err_cont targetOf client delay n item rest i e h] at hklen ⊢
        match k with
        | 0 => simp [entryOf, h]
        | k + 1 =>
          simp only [List.getElem?_cons_succ, List.get_cons_succ]
          have hrec := ih (i + 1) k (by simpa using hk2) (by simpa using hklen)
          rw [show i + (k + 1) = i + 1 + k by omega]
          exact hrec

theorem bulkLoop_targets {α : Type} (targetOf : α → String)
    (client : Nat → Except Thrown TransactionResult)
    (delay : Option Nat) (cont : Bool) (n : Nat) (items : List α) :
    ∀ i, (bulkLoop targetOf client delay cont n items i).results.map
        (fun r => r.recipientAddress) =
      (items.take (bulkLoop targetOf client delay cont n items i).results.length).map
        targetOf := by
  induction items with
  | nil => intro i; simp [bulkLoop]
  | cons item rest ih =>
    intro i
    cases h : client i with
    | ok result =>
      cases hs : result.success with
      | true =>
        rw [bulkLoop_cons_ok_succ targetOf client delay cont n item rest i result h hs]
        simp only [List.length_cons, List.take_succ_cons, List.map_cons, ih (i + 1)]
        simp [successEntry]
      | false =>
        cases cont with
        | false =>
          rw [bulkLoop_cons_ok_fail_stop targetOf client delay n item rest i result h hs]
          simp [failureEntry]
        | true =>
          rw [bulkLoop_cons_ok_fail_cont targetOf client delay n item rest i result h hs]
          simp only [List.length_cons, List.take_succ_cons, List.map_cons, ih (i + 1)]
          simp [failureEntry]
    | error e =>
      cases cont with
      | false =>
        rw [bulkLoop_cons_err_stop targetOf client delay n item rest i e h]
        simp [failureEntry]
      | true =>
        rw [bulkLoop_cons_err_cont targetOf client delay n item rest i e h]
        simp only [List.length_cons, List.take_succ_cons, List.map_cons, ih (i + 1)]
        simp [failureEntry]

theorem bulkLoop_first_fail {α : Type} (targetOf : α → String)
    (client : Nat → Except Thrown TransactionResult)
    (delay : Option Nat) (n : Nat) (items : List α) :
    ∀ i k, k < items.length → (∀ j, j < k → clientOk (client (i + j)) = true) →
      clientOk (client (i + k)) = false →
      (bulkLoop targetOf client delay false n items i).results.length = k + 1 := by
  induction items with
  | nil => intro i k hk _ _; simp at hk
  | cons item rest ih =>
    intro i k hk hok hfail
    match k with
    | 0 =>
      simp only [Nat.add_zero] at hfail
      cases h : client i with
      | ok result =>
        have hs : result.success = false := by
          simpa [clientOk, h] using hfail
        rw [bulkLoop_cons_ok_fail_stop targetOf client delay n item rest i result h hs]
        simp
      | error e =>
        rw [bulkLoop_cons_err_stop targetOf client delay n item rest i e h]
        simp
    | k + 1 =>
      have h0 : clientOk (client i) = true := by
        simpa using hok 0 (Nat.succ_pos k)
      cases h : client i with
      | ok result =>
        have hs : result.success = true := by
          simpa [clientOk, h] using h0
        have hok' : ∀ j, j < k → clientOk (client (i + 1 + j)) = true := by
          intro j hj
          have := hok (j + 1) (Nat.succ_lt_succ hj)
          rw [show i + 1 + j = i + (j + 1) by omega]
          exact this
        have hfail' : clientOk (client (i + 1 + k)) = false := by
          rw [show i + 1 + k = i + (k + 1) by omega]
          exact hfail
        have hrec := ih (i + 1) k (by simpa using hk) hok' hfail'
        rw [bulkLoop_cons_ok_succ targetOf client delay false n item rest i result h hs]
        simpa using hrec
      | error e =>
        simp [clientOk, h] at h0

theorem bulkLoop_paced {α : Type} (targetOf : α → String)
    (client : Nat → Except Thrown TransactionResult) (cont : Bool) (d : Nat)
    (hd : d ≠ 0) (hc : ∀ j, ∃ r, client j = Except.ok r) (items : List α) :
    ∀ i n, n = i + items.length →
      (bulkLoop targetOf client (some d) cont n items i).trace =
        pacedFrom d i (bulkLoop targetOf client (some d) cont n items i).results.length := by
  induction items with
  | nil => intro i nn hn; simp [bulkLoop, pacedFrom]
  | cons item rest ih =>
    intro i nn hn
    obtain ⟨result, h⟩ := hc i
    cases hs : result.success with
    | true =>
      rw [bulkLoop_cons_ok_succ targetOf client (some d) cont nn item rest i result h hs]
      cases rest with
      | nil =>
        have hde : delayEvents (some d) i nn = [] := by
          simp only [List.length_cons, List.length_nil] at hn
          simp [delayEvents, hn]
        simp [bulkLoop, hde, pacedFrom]
      | cons item2 rest2 =>
        have hlt : i < nn - 1 := by simp at hn; omega
        have hde : delayEvents (some d) i nn = [Event.delay d] := by
          simp [delayEvents, delayTruthy, hd, hlt]
        have hpos := bulkLoop_pos targetOf client (some d) cont nn item2 rest2 (i + 1)
        have hrec := ih (i + 1) nn (by simp at hn ⊢; omega)
        cases hL : (bulkLoop targetOf client (some d) cont nn
            (item2 :: rest2) (i + 1)).results.length with
        | zero => omega
        | succ m =>
          rw [hrec, hL]
          simp only [hde, List.cons_append, List.nil_append, List.length_cons, hL]
          rfl
    | false =>
      cases cont with
      | false =>
        rw [bulkLoop_cons_ok_fail_stop targetOf client (some d) nn item rest i result h hs]
        simp [pacedFrom]
      | true =>
        rw [bulkLoop_cons_ok_fail_cont targetOf client (some d) nn item rest i result h hs]
        cases rest with
        | nil =>
          have hde : delayEvents (some d) i nn = [] := by
            simp only [List.length_cons, List.length_nil] at hn
            simp [delayEvents, hn]
          simp [bulkLoop, hde, pacedFrom]
        | cons item2 rest2 =>
          have hlt : i < nn - 1 := by simp at hn; omega
          have hde : delayEvents (some d) i nn = [Event.delay d] := by
            simp [delayEvents, delayTruthy, hd, hlt]
          have hpos := bulkLoop_pos targetOf client (some d) true nn item2 rest2 (i + 1)
          have hrec := ih (i + 1) nn (by simp at hn ⊢; omega)
          cases hL : (bulkLoop targetOf client (some d) true nn
              (item2 :: rest2) (i + 1)).results.length with
          | zero => omega
          | succ m =>
            rw [hrec, hL]
            simp only [hde, List.cons_append, List.nil_append, List.length_cons, hL]
            rfl

theorem pacedFrom_eq_intersperse (d : Nat) :
    ∀ m i, pacedFrom d i m =
      List.intersperse (Event.delay d) ((List.range' i m).map Event.send) := by
  intro m
  induction m using Nat.strong_induction_on with
  | _ m ih =>
    match m with
    | 0 => intro i; simp [pacedFrom]
    | 1 => intro i; simp [pacedFrom, List.range'_succ]
    | m + 2 =>
      intro i
      rw [show pacedFrom d i (m + 2) =
          Event.send i :: Event.delay d :: pacedFrom d (i + 1) (m + 1) from rfl]
      rw [ih (m + 1) (by omega) (i + 1)]
      rw [List.range'_succ, List.range'_succ]
      simp [List.intersperse, List.range'_succ]

theorem bulkLoopE_eq {α : Type} (targetOf : α → String)
    (client : Nat → Except Thrown TransactionResult)
    (delay : Option Nat) (cont : Bool) (n : Nat) (items : List α) :
    ∀ i, bulkLoopE targetOf client delay cont n items i =
      Except.ok (bulkLoop targetOf client delay cont n items i) := by
  induction items with
  | nil => intro i; simp [bulkLoopE, bulkLoop]
  | cons item rest ih =>
    intro i
    cases h : client i with
    | ok result =>
      cases hs : result.success with
      | true =>
        rw [bulkLoop_cons_ok_succ targetOf client delay cont n item rest i result h hs]
        simp [bulkLoopE, h, hs, Except.tryCatch, Except.bind, ih (i + 1), successEntry]
      | false =>
        cases cont with
        | false =>
          rw [bulkLoop_cons_ok_fail_stop targetOf client delay n item rest i result h hs]
          simp [bulkLoopE, h, hs, Except.tryCatch, Except.bind]
        | true =>
          rw [bulkLoop_cons_ok_fail_cont targetOf client delay n item rest i result h hs]
          simp [bulkLoopE, h, hs, Except.tryCatch, Except.bind, ih (i + 1), failureEntry]
    | error e =>
      cases cont with
      | false =>
        rw [bulkLoop_cons_err_stop targetOf client delay n item rest i e h]
        simp [bulkLoopE, h, Except.tryCatch, Except.bind]
      | true =>
        rw [bulkLoop_cons_err_cont targetOf client delay n item rest i e h]
        simp [bulkLoopE, h, Except.tryCatch, Except.bind, ih (i + 1), failureEntry]

/-- The loop accumulator underlying one `sendBulkMessages` run. -/
def bulkRunM (cfg : BulkMessageConfig) (network : String)
    (chain : Nat → Except Thrown String) : LoopOut :=
  bulkLoop PublicKey.toBase58 (fun i => Except.ok (sendMessage network (chain i)))
    cfg.delayBetweenTx cfg.continueOnError cfg.recipientAddresses.length
    cfg.recipientAddresses 0

/-- The loop accumulator underlying one `sendBulkMemoOnly` run. -/
def bulkRunMemo (cfg : BulkMemoConfig) (network : String)
    (chain : Nat → Except Thrown String) : LoopOut :=
  bulkLoop (fun _ => "memo-only") (fun i => Except.ok (sendMemoOnly network (chain i)))
    cfg.delayBetweenTx cfg.continueOnError (memoMessagesOf cfg).length
    (memoMessagesOf cfg) 0

theorem sendBulkMessages_eq (cfg : BulkMessageConfig) (network : String)
    (chain : Nat → Except Thrown String) :
    sendBulkMessages cfg network chain =
      (⟨(bulkRunM cfg network chain).totalSent, (bulkRunM cfg network chain).totalFailed,
        (bulkRunM cfg network chain).results,
        (bulkRunM cfg network chain).totalFailed == 0⟩,
       (bulkRunM cfg network chain).trace) := rfl

theorem sendBulkMemoOnly_eq (cfg : BulkMemoConfig) (network : String)
    (chain : Nat → Except Thrown String) :
    sendBulkMemoOnly cfg network chain =
      (⟨(bulkRunMemo cfg network chain).totalSent, (bulkRunMemo cfg network chain).totalFailed,
        (bulkRunMemo cfg network chain).results,
        (bulkRunMemo cfg network chain).totalFailed == 0⟩,
       (bulkRunMemo cfg network chain).trace) := rfl

theorem clientOk_sendMessage (network : String) (c : Except Thrown String) :
    clientOk (Except.ok (sendMessage network c)) = chainOk c := by
  cases c <;> simp [clientOk, chainOk, sendMessage]

theorem clientOk_sendMemoOnly (network : String) (c : Except Thrown String) :
    clientOk (Except.ok (sendMemoOnly network c)) = chainOk c := by
  cases c <;> simp [clientOk, chainOk, sendMemoOnly]

theorem entryOf_fail (addr : String) (outcome : Except Thrown TransactionResult)
    (h : clientOk outcome = false) :
    entryOf addr outcome = failureEntry addr (clientErrOf outcome) := by
  cases outcome with
  | ok r =>
    have : r.success = false := by simpa [clientOk] using h
    simp [entryOf, clientErrOf, this]
  | error e => simp [entryOf, clientErrOf]

theorem bulkRunM_first_fail (cfg : BulkMessageConfig) (network : String)
    (chain : Nat → Except Thrown String) (i : Nat)
    (hcont : cfg.continueOnError = false) (hi : i < cfg.recipientAddresses.length)
    (hbefore : ∀ j, j < i → chainOk (chain j) = true) (hfail : chainOk (chain i) = false) :
    (bulkRunM cfg network chain).results.length = i + 1 := by
  unfold bulkRunM
  rw [hcont]
  refine bulkLoop_first_fail _ _ _ _ _ 0 i hi ?_ ?_
  · intro j hj
    simpa [clientOk_sendMessage] using hbefore j hj
  · simpa [clientOk_sendMessage] using hfail

theorem bulkRunMemo_first_fail (cfg : BulkMemoConfig) (network : String)
    (chain : Nat → Except Thrown String) (i : Nat)
    (hcont : cfg.continueOnError = false) (hi : i < (memoMessagesOf cfg).length)
    (hbefore : ∀ j, j < i → chainOk (chain j) = true) (hfail : chainOk (chain i) = false) :
    (bulkRunMemo cfg network chain).results.length = i + 1 := by
  unfold bulkRunMemo
  rw [hcont]
  refine bulkLoop_first_fail _ _ _ _ _ 0 i hi ?_ ?_
  · intro j hj
    simpa [clientOk_sendMemoOnly] using hbefore j hj
  · simpa [clientOk_sendMemoOnly] using hfail

theorem bulkRunM_sends (cfg : BulkMessageConfig) (network : String)
    (chain : Nat → Except Thrown String) :
    sendsOf (bulkRunM cfg network chain).trace =
      List.range (bulkRunM cfg network chain).results.length := by
  unfold bulkRunM
  rw [List.range_eq_range']
  exact bulkLoop_sends _ _ _ _ _ _ 0

theorem bulkRunMemo_sends (cfg : BulkMemoConfig) (network : String)
    (chain : Nat → Except Thrown String) :
    sendsOf (bulkRunMemo cfg network chain).trace =
      List.range (bulkRunMemo cfg network chain).results.length := by
  unfold bulkRunMemo
  rw [List.range_eq_range']
  exact bulkLoop_sends _ _ _ _ _ _ 0

/-- C1: for `sendBulkMessages` and `sendBulkMemoOnly` with
`continueOnError = false`, if the first failing work item has index `i`
(all earlier chain outcomes succeed and the one at `i` fails), then the
returned results list has length `i + 1` and the trace contains send
attempts exactly for indices `0, ..., i` — no send is dispatched for any
index greater than `i`. -/
theorem claim_C1_early_stop (cfgM : BulkMessageConfig) (cfgm : BulkMemoConfig)
    (network : String) (chain chain2 : Nat → Except Thrown String) (i i2 : Nat)
    (hcont : cfgM.continueOnError = false) (hcont2 : cfgm.continueOnError = false)
    (hi : i < cfgM.recipientAddresses.length) (hi2 : i2 < (memoMessagesOf cfgm).length)
    (hbefore : ∀ j, j < i → chainOk (chain j) = true)
    (hfail : chainOk (chain i) = false)
    (hbefore2 : ∀ j, j < i2 → chainOk (chain2 j) = true)
    (hfail2 : chainOk (chain2 i2) = false) :
    ((sendBulkMessages cfgM network chain).1.results.length = i + 1 ∧
      sendsOf (sendBulkMessages cfgM network chain).2 = List.range (i + 1)) ∧
    ((sendBulkMemoOnly cfgm network chain2).1.results.length = i2 + 1 ∧
      sendsOf (sendBulkMemoOnly cfgm network chain2).2 = List.range (i2 + 1)) := by
  have hlenM := bulkRunM_first_fail cfgM network chain i hcont hi hbefore hfail
  have hlenm := bulkRunMemo_first_fail cfgm network chain2 i2 hcont2 hi2 hbefore2 hfail2
  rw [sendBulkMessages_eq, sendBulkMemoOnly_eq]
  refine ⟨⟨hlenM, ?_⟩, ⟨hlenm, ?_⟩⟩
  · rw [bulkRunM_sends, hlenM]
  · rw [bulkRunMemo_sends, hlenm]

/-- C2: for both bulk loops, `totalSent` counts the `success = true`
entries of `results`, `totalFailed` counts the `success = false` entries,
`overallSuccess` holds exactly when `totalFailed = 0`, and an empty work
list yields `totalSent = 0, totalFailed = 0, results = [],
overallSuccess = true`. -/
theorem claim_C2_aggregation (cfgM : BulkMessageConfig) (cfgm : BulkMemoConfig)
    (network : String) (chain chain2 : Nat → Except Thrown String) :
    ((sendBulkMessages cfgM network chain).1.totalSent =
        (sendBulkMessages cfgM network chain).1.results.countP (fun r => r.success) ∧
      (sendBulkMessages cfgM network chain).1.totalFailed =
        (sendBulkMessages cfgM network chain).1.results.countP (fun r => !r.success) ∧
      ((sendBulkMessages cfgM network chain).1.overallSuccess = true ↔
        (sendBulkMessages cfgM network chain).1.totalFailed = 0) ∧
      (cfgM.recipientAddresses = [] →
        (sendBulkMessages cfgM network chain).1 = ⟨0, 0, [], true⟩)) ∧
    ((sendBulkMemoOnly cfgm network chain2).1.totalSent =
        (sendBulkMemoOnly cfgm network chain2).1.results.countP (fun r => r.success) ∧
      (sendBulkMemoOnly cfgm network chain2).1.totalFailed =
        (sendBulkMemoOnly cfgm network chain2).1.results.countP (fun r => !r.success) ∧
      ((sendBulkMemoOnly cfgm network chain2).1.overallSuccess = true ↔
        (sendBulkMemoOnly cfgm network chain2).1.totalFailed = 0) ∧
      (memoMessagesOf cfgm = [] →
        (sendBulkMemoOnly cfgm network chain2).1 = ⟨0, 0, [], true⟩)) := by
  rw [sendBulkMessages_eq, sendBulkMemoOnly_eq]
  refine ⟨⟨?_, ?_, ?_, ?_⟩, ⟨?_, ?_, ?_, ?_⟩⟩
  · show (bulkRunM cfgM network chain).totalSent = _
    unfold bulkRunM
    exact bulkLoop_sent_counts _ _ _ _ _ _ 0
  · show (bulkRunM cfgM network chain).totalFailed = _
    unfold bulkRunM
    exact bulkLoop_failed_counts _ _ _ _ _ _ 0
  · show ((bulkRunM cfgM network chain).totalFailed == 0) = true ↔ _
    simp
  · intro h
    show (⟨_, _, _, _⟩ : BulkMessageResult) = _
    unfold bulkRunM
    rw [h]
    simp [bulkLoop]
  · show (bulkRunMemo cfgm network chain2).totalSent = _
    unfold bulkRunMemo
    exact bulkLoop_sent_counts _ _ _ _ _ _ 0
  · show (bulkRunMemo cfgm network chain2).totalFailed = _
    unfold bulkRunMemo
    exact bulkLoop_failed_counts _ _ _ _ _ _ 0
  · show ((bulkRunMemo cfgm network chain2).totalFailed == 0) = true ↔ _
    simp
  · intro h
    show (⟨_, _, _, _⟩ : BulkMessageResult) = _
    unfold bulkRunMemo
    rw [h]
    simp [bulkLoop]

/-- C3: for both bulk loops, at return (and hence after every loop
iteration, each of which is the return state of the run on the
corresponding input prefix) `totalSent + totalFailed` equals the length of
`results`, which is at most the number of work items; `results` is
strictly shorter than the input only when `continueOnError = false` and an
early stop occurred (the last recorded result is a failure). -/
theorem claim_C3_invariant (cfgM : BulkMessageConfig) (cfgm : BulkMemoConfig)
    (network : String) (chain chain2 : Nat → Except Thrown String) :
    ((sendBulkMessages cfgM network chain).1.totalSent +
        (sendBulkMessages cfgM network chain).1.totalFailed =
        (sendBulkMessages cfgM network chain).1.results.length ∧
      (sendBulkMessages cfgM network chain).1.results.length ≤
        cfgM.recipientAddresses.length ∧
      ((sendBulkMessages cfgM network chain).1.results.length <
          cfgM.recipientAddresses.length →
        cfgM.continueOnError = false ∧
        ∃ r, (sendBulkMessages cfgM network chain).1.results.getLast? = some r ∧
          r.success = false)) ∧
    ((sendBulkMemoOnly cfgm network chain2).1.totalSent +
        (sendBulkMemoOnly cfgm network chain2).1.totalFailed =
        (sendBulkMemoOnly cfgm network chain2).1.results.length ∧
      (sendBulkMemoOnly cfgm network chain2).1.results.length ≤
        (memoMessagesOf cfgm).length ∧
      ((sendBulkMemoOnly cfgm network chain2).1.results.length <
          (memoMessagesOf cfgm).length →
        cfgm.continueOnError = false ∧
        ∃ r, (sendBulkMemoOnly cfgm network chain2).1.results.getLast? = some r ∧
          r.success = false)) ∧
    (∀ k,
      (sendBulkMessages { cfgM with recipientAddresses := cfgM.recipientAddresses.take k }
          network chain).1.totalSent +
        (sendBulkMessages { cfgM with recipientAddresses := cfgM.recipientAddresses.take k }
          network chain).1.totalFailed =
        (sendBulkMessages { cfgM with recipientAddresses := cfgM.recipientAddresses.take k }
          network chain).1.results.length ∧
      (sendBulkMessages { cfgM with recipientAddresses := cfgM.recipientAddresses.take k }
          network chain).1.results.length ≤ cfgM.recipientAddresses.length) := by
  rw [sendBulkMessages_eq, sendBulkMemoOnly_eq]
  refine ⟨⟨?_, ?_, ?_⟩, ⟨?_, ?_, ?_⟩, ?_⟩
  · show (bulkRunM cfgM network chain).totalSent + (bulkRunM cfgM network chain).totalFailed = _
    unfold bulkRunM
    exact bulkLoop_sum _ _ _ _ _ _ 0
  · show (bulkRunM cfgM network chain).results.length ≤ _
    unfold bulkRunM
    exact bulkLoop_length_le _ _ _ _ _ _ 0
  · intro hlt
    have hshort : (bulkRunM cfgM network chain).results.length <
        cfgM.recipientAddresses.length := hlt
    unfold bulkRunM at hshort ⊢
    obtain ⟨hcont, pre, r, hpre, hr⟩ := bulkLoop_short _ _ _ _ _ _ 0 hshort
    refine ⟨hcont, r, ?_, hr⟩
    rw [hpre, List.getLast?_concat]
  · show (bulkRunMemo cfgm network chain2).totalSent +
      (bulkRunMemo cfgm network chain2).totalFailed = _
    unfold bulkRunMemo
    exact bulkLoop_sum _ _ _ _ _ _ 0
  · show (bulkRunMemo cfgm network chain2).results.length ≤ _
    unfold bulkRunMemo
    exact bulkLoop_length_le _ _ _ _ _ _ 0
  · intro hlt
    have hshort : (bulkRunMemo cfgm network chain2).results.length <
        (memoMessagesOf cfgm).length := hlt
    unfold bulkRunMemo at hshort ⊢
    obtain ⟨hcont, pre, r, hpre, hr⟩ := bulkLoop_short _ _ _ _ _ _ 0 hshort
    refine ⟨hcont, r, ?_, hr⟩
    rw [hpre, List.getLast?_concat]
  · intro k
    rw [sendBulkMessages_eq]
    constructor
    · show (bulkRunM _ network chain).totalSent + (bulkRunM _ network chain).totalFailed = _
      unfold bulkRunM
      exact bulkLoop_sum _ _ _ _ _ _ 0
    · show (bulkRunM _ network chain).results.length ≤ _
      have h1 : (bulkRunM { cfgM with recipientAddresses := cfgM.recipientAddresses.take k }
          network chain).results.length ≤ (cfgM.recipientAddresses.take k).length := by
        unfold bulkRunM
        exact bulkLoop_length_le _ _ _ _ _ _ 0
      calc (bulkRunM { cfgM with recipientAddresses := cfgM.recipientAddresses.take k }
            network chain).results.length
        ≤ (cfgM.recipientAddresses.take k).length := h1
      _ ≤ cfgM.recipientAddresses.length := by
          rw [List.length_take]
          omega

/-- C4: for both bulk loops with `continueOnError = true`, the returned
results list has exactly one entry per work item. -/
theorem claim_C4_full_coverage (cfgM : BulkMessageConfig) (cfgm : BulkMemoConfig)
    (network : String) (chain chain2 : Nat → Except Thrown String)
    (hcont : cfgM.continueOnError = true) (hcont2 : cfgm.continueOnError = true) :
    (sendBulkMessages cfgM network chain).1.results.length =
      cfgM.recipientAddresses.length ∧
    (sendBulkMemoOnly cfgm network chain2).1.results.length =
      (memoMessagesOf cfgm).length := by
  rw [sendBulkMessages_eq, sendBulkMemoOnly_eq]
  constructor
  · show (bulkRunM cfgM network chain).results.length = _
    unfold bulkRunM
    rw [hcont]
    exact bulkLoop_cont_length _ _ _ _ _ 0
  · show (bulkRunMemo cfgm network chain2).results.length = _
    unfold bulkRunMemo
    rw [hcont2]
    exact bulkLoop_cont_length _ _ _ _ _ 0

/-- C5: `sendBulkMessages` preserves input order with no reordering: the
recorded `recipientAddress` strings are exactly the base58 encodings of
the corresponding prefix of `recipientAddresses`, position by position,
and send attempts are dispatched strictly left to right
(indices `0, 1, ...` in order). -/
theorem claim_C5_input_order (cfgM : BulkMessageConfig) (network : String)
    (chain : Nat → Except Thrown String) :
    (sendBulkMessages cfgM network chain).1.results.map (fun r => r.recipientAddress) =
      (cfgM.recipientAddresses.take
        (sendBulkMessages cfgM network chain).1.results.length).map PublicKey.toBase58 ∧
    sendsOf (sendBulkMessages cfgM network chain).2 =
      List.range (sendBulkMessages cfgM network chain).1.results.length := by
  rw [sendBulkMessages_eq]
  constructor
  · show (bulkRunM cfgM network chain).results.map _ = _
    unfold bulkRunM
    exact bulkLoop_targets _ _ _ _ _ _ 0
  · exact bulkRunM_sends cfgM network chain

/-- C6: the bulk dispatch never raises: the `Except`-monad rendering of
the loop (and of `sendBulkMessages` / `sendBulkMemoOnly`) always returns
`Except.ok`, for every client — including one that throws — and every
per-item failure, whether the client returned an error result or threw,
is recorded in the results list as a `success = false` entry with empty
signature and the failure's descriptive text. -/
theorem claim_C6_failures_as_data {α : Type} (targetOf : α → String)
    (client : Nat → Except Thrown TransactionResult) (delay : Option Nat) (cont : Bool)
    (n : Nat) (items : List α) (i : Nat)
    (cfgM : BulkMessageConfig) (cfgm : BulkMemoConfig) (network : String)
    (chain chain2 : Nat → Except Thrown String) :
    bulkLoopE targetOf client delay cont n items i =
      Except.ok (bulkLoop targetOf client delay cont n items i) ∧
    sendBulkMessagesE cfgM network chain =
      Except.ok (sendBulkMessages cfgM network chain) ∧
    sendBulkMemoOnlyE cfgm network chain2 =
      Except.ok (sendBulkMemoOnly cfgm network chain2) ∧
    (∀ k (hk2 : k < items.length),
      k < (bulkLoop targetOf client delay cont n items i).results.length →
      clientOk (client (i + k)) = false →
      (bulkLoop targetOf client delay cont n items i).results[k]? =
        some (failureEntry (targetOf (items.get ⟨k, hk2⟩))
          (clientErrOf (client (i + k))))) := by
  refine ⟨bulkLoopE_eq _ _ _ _ _ _ i, ?_, ?_, ?_⟩
  · simp [sendBulkMessagesE, sendBulkMessages, bulkLoopE_eq, Except.bind]
  · simp [sendBulkMemoOnlyE, sendBulkMemoOnly, bulkLoopE_eq, Except.bind]
  · intro k hk2 hklen hfail
    have h := bulkLoop_getElemQ targetOf client delay cont n items i k hk2 hklen
    rw [h, entryOf_fail _ _ hfail]

/-- C7: for both bulk loops, whenever `delayBetweenTx` is a non-zero
duration `d`, the observable trace is exactly the send attempts in order
with one `delay d` between each two consecutive processed items and no
delay after the final processed item (early stop included). -/
theorem claim_C7_pacing (cfgM : BulkMessageConfig) (cfgm : BulkMemoConfig)
    (network : String) (chain chain2 : Nat → Except Thrown String) (d d2 : Nat)
    (hdM : cfgM.delayBetweenTx = some d) (hd : d ≠ 0)
    (hdm : cfgm.delayBetweenTx = some d2) (hd2 : d2 ≠ 0) :
    (sendBulkMessages cfgM network chain).2 =
      List.intersperse (Event.delay d)
        ((List.range
          (sendBulkMessages cfgM network chain).1.results.length).map Event.send) ∧
    (sendBulkMemoOnly cfgm network chain2).2 =
      List.intersperse (Event.delay d2)
        ((List.range
          (sendBulkMemoOnly cfgm network chain2).1.results.length).map Event.send) := by
  constructor
  · show (bulkRunM cfgM network chain).trace =
      List.intersperse (Event.delay d)
        ((List.range (bulkRunM cfgM network chain).results.length).map Event.send)
    unfold bulkRunM
    rw [hdM]
    rw [bulkLoop_paced PublicKey.toBase58
      (fun j => Except.ok (sendMessage network (chain j))) cfgM.continueOnError d hd
      (fun j => ⟨sendMessage network (chain j), rfl⟩) cfgM.recipientAddresses 0
      cfgM.recipientAddresses.length (by omega)]
    rw [pacedFrom_eq_intersperse, List.range_eq_range']
  · show (bulkRunMemo cfgm network chain2).trace =
      List.intersperse (Event.delay d2)
        ((List.range (bulkRunMemo cfgm network chain2).results.length).map Event.send)
    unfold bulkRunMemo
    rw [hdm]
    rw [bulkLoop_paced (fun _ => "memo-only")
      (fun j => Except.ok (sendMemoOnly network (chain2 j))) cfgm.continueOnError d2 hd2
      (fun j => ⟨sendMemoOnly network (chain2 j), rfl⟩) (memoMessagesOf cfgm) 0
      (memoMessagesOf cfgm).length (by omega)]
    rw [pacedFrom_eq_intersperse, List.range_eq_range']

/-- C8: every record appended by `sendBulkMessages` has the shape the spec
describes: on a successful chain outcome with signature `sig`, the entry
is `success = true` with that signature and the derived explorer link; on
a failed outcome, the entry is `success = false` with empty signature and
the error's descriptive text. -/
theorem claim_C8_record_shape (cfgM : BulkMessageConfig) (network : String)
    (chain : Nat → Except Thrown String) (k : Nat)
    (hk : k < (sendBulkMessages cfgM network chain).1.results.length)
    (hk2 : k < cfgM.recipientAddresses.length) :
    (∀ sig, chain k = Except.ok sig →
      (sendBulkMessages cfgM network chain).1.results[k]? =
        some ⟨(cfgM.recipientAddresses.get ⟨k, hk2⟩).toBase58, sig, true, none,
          some (getExplorerUrl sig network)⟩) ∧
    (∀ e, chain k = Except.error e →
      (sendBulkMessages cfgM network chain).1.results[k]? =
        some ⟨(cfgM.recipientAddresses.get ⟨k, hk2⟩).toBase58, "", false,
          some (errorMessageOf e), none⟩) := by
  have hq : (bulkRunM cfgM network chain).results[k]? =
      some (entryOf ((cfgM.recipientAddresses.get ⟨k, hk2⟩).toBase58)
        (Except.ok (sendMessage network (chain k)))) := by
    unfold bulkRunM
    have h := bulkLoop_getElemQ PublicKey.toBase58
      (fun j => Except.ok (sendMessage network (chain j)))
      cfgM.delayBetweenTx cfgM.continueOnError cfgM.recipientAddresses.length
      cfgM.recipientAddresses 0 k hk2 hk
    simpa using h
  constructor
  · intro sig hsig
    show (bulkRunM cfgM network chain).results[k]? = _
    rw [hq, hsig]
    simp [entryOf, sendMessage, successEntry]
  · intro e he
    show (bulkRunM cfgM network chain).results[k]? = _
    rw [hq, he]
    simp [entryOf, sendMessage, failureEntry]

/-- C9: whenever recipients-file validation fails (missing or unreadable
file, empty file, or invalid addresses present), `sendMessagesFromFile`
returns exactly `totalSent = 0, totalFailed = 0, results = [],
overallSuccess = false` with an empty trace (no send attempted) — so at
this entry point `overallSuccess = false` holds while `totalFailed = 0`,
breaking the equivalence `overallSuccess ↔ totalFailed = 0` that the two
bulk loops guarantee. -/
theorem claim_C9_file_validation_gate (cfg : FileRecipientConfig)
    (isValidAddress : String → Bool) (fileContent : Option String) (network : String)
    (chain : Nat → Except Thrown String)
    (hval : (readRecipientsFile cfg.recipientsFile isValidAddress fileContent).isValid
      = false) :
    sendMessagesFromFile cfg isValidAddress fileContent network chain =
      (⟨0, 0, [], false⟩, []) ∧
    ((sendMessagesFromFile cfg isValidAddress fileContent network chain).1.overallSuccess
        = false ∧
      (sendMessagesFromFile cfg isValidAddress fileContent network chain).1.totalFailed
        = 0) ∧
    ¬(((sendMessagesFromFile cfg isValidAddress fileContent network chain).1.overallSuccess
        = true) ↔
      (sendMessagesFromFile cfg isValidAddress fileContent network chain).1.totalFailed
        = 0) := by
  have hmain : sendMessagesFromFile cfg isValidAddress fileContent network chain =
      (⟨0, 0, [], false⟩, []) := by
    simp [sendMessagesFromFile, hval]
  refine ⟨hmain, ⟨?_, ?_⟩, ?_⟩ <;> simp [hmain]

/-- C10: in `sendBulkMemoOnly`, an omitted `messages` field falls back to
the single-element work list `[config.message]` (exactly one memo attempt,
at index 0), while an explicit empty `messages` list yields zero attempts
and the all-success empty outcome; every result entry carries the literal
`"memo-only"` as its `recipientAddress`. -/
theorem claim_C10_memo_work_list (cfgm : BulkMemoConfig) (network : String)
    (chain : Nat → Except Thrown String) :
    (cfgm.messages = none →
      memoMessagesOf cfgm = [cfgm.message] ∧
      (sendBulkMemoOnly cfgm network chain).1.results.length = 1 ∧
      sendsOf (sendBulkMemoOnly cfgm network chain).2 = [0]) ∧
    (cfgm.messages = some [] →
      (sendBulkMemoOnly cfgm network chain).1 = ⟨0, 0, [], true⟩ ∧
      (sendBulkMemoOnly cfgm network chain).2 = []) ∧
    (∀ r ∈ (sendBulkMemoOnly cfgm network chain).1.results,
      r.recipientAddress = "memo-only") := by
  refine ⟨?_, ?_, ?_⟩
  · intro h
    have hmm : memoMessagesOf cfgm = [cfgm.message] := by simp [memoMessagesOf, h]
    have hle : (bulkRunMemo cfgm network chain).results.length ≤
        (memoMessagesOf cfgm).length := by
      unfold bulkRunMemo
      exact bulkLoop_length_le _ _ _ _ _ _ 0
    have hpos : 0 < (bulkRunMemo cfgm network chain).results.length := by
      unfold bulkRunMemo
      rw [hmm]
      exact bulkLoop_pos _ _ _ _ _ _ _ 0
    have hlen : (bulkRunMemo cfgm network chain).results.length = 1 := by
      rw [hmm] at hle
      simp at hle
      omega
    refine ⟨hmm, hlen, ?_⟩
    show sendsOf (bulkRunMemo cfgm network chain).trace = [0]
    rw [bulkRunMemo_sends, hlen]
    decide
  · intro h
    have hmm : memoMessagesOf cfgm = [] := by simp [memoMessagesOf, h]
    constructor
    · show (⟨(bulkRunMemo cfgm network chain).totalSent,
        (bulkRunMemo cfgm network chain).totalFailed,
        (bulkRunMemo cfgm network chain).results,
        (bulkRunMemo cfgm network chain).totalFailed == 0⟩ : BulkMessageResult) = _
      unfold bulkRunMemo
      rw [hmm]
      simp [bulkLoop]
    · show (bulkRunMemo cfgm network chain).trace = []
      unfold bulkRunMemo
      rw [hmm]
      simp [bulkLoop]
  · intro r hr
    have hmem : r.recipientAddress ∈
        (bulkRunMemo cfgm network chain).results.map (fun r => r.recipientAddress) :=
      List.mem_map_of_mem _ hr
    have ht : (bulkRunMemo cfgm network chain).results.map (fun r => r.recipientAddress) =
        ((memoMessagesOf cfgm).take
          (bulkRunMemo cfgm network chain).results.length).map (fun _ => "memo-only") := by
      unfold bulkRunMemo
      exact bulkLoop_targets _ _ _ _ _ _ 0
    rw [ht] at hmem
    obtain ⟨a, -, ha⟩ := List.mem_map.mp hmem
    exact ha.symm

/-- Concrete recipient list used by the witness runs. -/
def wAddrs : List PublicKey := [PublicKey.mk "addr1", PublicKey.mk "addr2", PublicKey.mk "addr3"]

/-- A chain oracle that confirms every submission. -/
def wChainOk : Nat → Except Thrown String := fun _ => Except.ok "sig"

/-- A chain oracle that fails exactly at index 1. -/
def wChainFail1 : Nat → Except Thrown String := fun i =>
  if i == 1 then Except.error (Thrown.error "boom") else Except.ok "sig"

/-- Witness bulk config: three recipients, delay 5 ms, stop on error. -/
def wCfgFalse : BulkMessageConfig :=
  { message := "hello", recipientAddresses := wAddrs, delayBetweenTx := some 5,
    continueOnError := false }

/-- Witness bulk config: three recipients, continue on error. -/
def wCfgTrue : BulkMessageConfig :=
  { message := "hello", recipientAddresses := wAddrs, continueOnError := true }

/-- Witness bulk config with an empty recipient list. -/
def wCfgEmpty : BulkMessageConfig :=
  { message := "hello", recipientAddresses := [] }

/-- Witness memo config: three explicit messages, stop on error. -/
def wMemoFalse : BulkMemoConfig :=
  { message := "m", messages := some ["a", "b", "c"], continueOnError := false }

/-- Witness memo config: three explicit messages, continue on error. -/
def wMemoTrue : BulkMemoConfig :=
  { message := "m", messages := some ["a", "b", "c"], continueOnError := true }

/-- Witness memo config: three explicit messages, delay 7 ms. -/
def wMemoDelay : BulkMemoConfig :=
  { message := "m", messages := some ["a", "b", "c"], delayBetweenTx := some 7 }

/-- Witness memo config with an explicit empty message list. -/
def wMemoEmptyList : BulkMemoConfig :=
  { message := "m", messages := some [] }

/-- Witness memo config with the `messages` field omitted. -/
def wMemoNone : BulkMemoConfig := { message := "solo" }

/-- Work items for the generic-loop witness. -/
def wItems3 : List String := ["addr1", "addr2", "addr3"]

/-- Target naming for the generic-loop witness. -/
def wTargets : String → String := fun s => s

/-- A per-item client that throws exactly at index 1. -/
def wClientThrow : Nat → Except Thrown TransactionResult := fun i =>
  if i == 1 then Except.error (Thrown.error "kaboom")
  else Except.ok { signature := "sig", success := true }

theorem claim_C1_early_stop_witness :
    ((sendBulkMessages wCfgFalse "devnet" wChainFail1).1.results.length = 2 ∧
      sendsOf (sendBulkMessages wCfgFalse "devnet" wChainFail1).2 = List.range 2) ∧
    ((sendBulkMemoOnly wMemoFalse "devnet" wChainFail1).1.results.length = 2 ∧
      sendsOf (sendBulkMemoOnly wMemoFalse "devnet" wChainFail1).2 = List.range 2) :=
  claim_C1_early_stop wCfgFalse wMemoFalse "devnet" wChainFail1 wChainFail1 1 1 rfl rfl
    (by decide) (by decide) (by decide) (by decide) (by decide) (by decide)

theorem claim_C2_aggregation_witness :
    (sendBulkMessages wCfgEmpty "devnet" wChainOk).1 = ⟨0, 0, [], true⟩ ∧
    (sendBulkMemoOnly wMemoEmptyList "devnet" wChainOk).1 = ⟨0, 0, [], true⟩ :=
  ⟨(claim_C2_aggregation wCfgEmpty wMemoEmptyList "devnet" wChainOk wChainOk).1.2.2.2 rfl,
   (claim_C2_aggregation wCfgEmpty wMemoEmptyList "devnet" wChainOk wChainOk).2.2.2.2 rfl⟩

theorem claim_C3_invariant_witness :
    wCfgFalse.continueOnError = false ∧
    ∃ r, (sendBulkMessages wCfgFalse "devnet" wChainFail1).1.results.getLast? = some r ∧
      r.success = false :=
  (claim_C3_invariant wCfgFalse wMemoFalse "devnet" wChainFail1 wChainFail1).1.2.2 (by decide)

theorem claim_C4_full_coverage_witness :
    (sendBulkMessages wCfgTrue "devnet" wChainFail1).1.results.length =
      wCfgTrue.recipientAddresses.length ∧
    (sendBulkMemoOnly wMemoTrue "devnet" wChainFail1).1.results.length =
      (memoMessagesOf wMemoTrue).length :=
  claim_C4_full_coverage wCfgTrue wMemoTrue "devnet" wChainFail1 wChainFail1 rfl rfl

theorem claim_C6_failures_as_data_witness :
    (bulkLoop wTargets wClientThrow none true 3 wItems3 0).results[1]? =
      some (failureEntry "addr2" (some "kaboom")) :=
  (claim_C6_failures_as_data wTargets wClientThrow none true 3 wItems3 0
    wCfgFalse wMemoFalse "devnet" wChainOk wChainOk).2.2.2 1 (by decide) (by decide) (by decide)

theorem claim_C7_pacing_witness :
    (sendBulkMessages wCfgFalse "devnet" wChainOk).2 =
      List.intersperse (Event.delay 5)
        ((List.range
          (sendBulkMessages wCfgFalse "devnet" wChainOk).1.results.length).map Event.send) ∧
    (sendBulkMemoOnly wMemoDelay "devnet" wChainOk).2 =
      List.intersperse (Event.delay 7)
        ((List.range
          (sendBulkMemoOnly wMemoDelay "devnet" wChainOk).1.results.length).map Event.send) :=
  claim_C7_pacing wCfgFalse wMemoDelay "devnet" wChainOk wChainOk 5 7 rfl (by decide) rfl
    (by decide)

theorem claim_C8_record_shape_witness :
    (sendBulkMessages wCfgTrue "devnet" wChainFail1).1.results[1]? =
      some ⟨"addr2", "", false, some "boom", none⟩ :=
  (claim_C8_record_shape wCfgTrue "devnet" wChainFail1 1 (by decide) (by decide)).2
    (Thrown.error "boom") rfl

theorem claim_C9_file_validation_gate_witness :
    sendMessagesFromFile ⟨"hello", "recipients.txt", none, false⟩ (fun _ => true) none
      "devnet" wChainOk = (⟨0, 0, [], false⟩, []) :=
  (claim_C9_file_validation_gate ⟨"hello", "recipients.txt", none, false⟩ (fun _ => true)
    none "devnet" wChainOk rfl).1

theorem claim_C10_memo_work_list_witness :
    (memoMessagesOf wMemoNone = ["solo"] ∧
      (sendBulkMemoOnly wMemoNone "devnet" wChainOk).1.results.length = 1 ∧
      sendsOf (sendBulkMemoOnly wMemoNone "devnet" wChainOk).2 = [0]) ∧
    ((sendBulkMemoOnly wMemoEmptyList "devnet" wChainOk).1 = ⟨0, 0, [], true⟩ ∧
      (sendBulkMemoOnly wMemoEmptyList "devnet" wChainOk).2 = []) :=
  ⟨(claim_C10_memo_work_list wMemoNone "devnet" wChainOk).1 rfl,
   (claim_C10_memo_work_list wMemoEmptyList "devnet" wChainOk).2.1 rfl⟩
